import Mathlib

/-!
Shallow embedding of src/minitel.c (minitel-sender).

External effects — serial writes, the liveness probe, and the signal-driven
flag keep_running — are supplied by oracles, indexed by the order in which
the C code performs the corresponding call or read.  Each embedded function
returns its C return value together with a trace of the externally visible
actions it performed, so that claims about "what was written" and "what was
closed" are statements about the trace.
-/

namespace Minitel

/-- CHARS_PER_LINE constant, minitel.c line 38. -/
def CHARS_PER_LINE : Nat := 80

/-- LINES_SKIP constant, minitel.c line 39. -/
def LINES_SKIP : Nat := 70

/-- MAX_RETRIES constant, minitel.c line 42. -/
def MAX_RETRIES : Nat := 5

/-- Linux errno value EBADF (bad file descriptor), tested at minitel.c line 126. -/
def EBADF : Nat := 9

/-- Linux O_NONBLOCK flag bit, used at minitel.c lines 120 and 124. -/
def O_NONBLOCK : Nat := 2048

/-- Value of the signed `char c` (minitel.c line 209) after `c = fgetc(file)`
stores a byte into it: on a signed-char platform, bytes at or above 128 wrap
to negatives, so byte 0xFF becomes -1, indistinguishable from EOF in the
loop condition at line 227. -/
def charOfByte (b : Nat) : Int := if b < 128 then (b : Int) else (b : Int) - 256

/-! ## check_serial_connection (minitel.c lines 110-131)

The probe result is an oracle: `probeErr = none` means the zero-length
`write` returned non-negatively; `probeErr = some e` means it returned a
negative value with `errno = e`.  `flags` is the descriptor's file status
flags as returned by `fcntl(fd, F_GETFL)`.  The result records, besides the
C return value, the list of arguments successively passed to
`fcntl(fd, F_SETFL, _)` and the flag word left on the descriptor at return. -/

structure CheckRes where
  result : Bool
  setfl : List Nat
  finalFlags : Nat
deriving DecidableEq

def check_serial_connection (fd : Int) (flags : Nat) (probeErr : Option Nat) : CheckRes :=
  if fd < 0 then
    { result := false, setfl := [], finalFlags := flags }
  else
    let nb := Nat.lor flags O_NONBLOCK
    let ok : Bool :=
      match probeErr with
      | some e => decide (e ≠ EBADF)
      | none => true
    { result := ok, setfl := [nb, flags], finalFlags := flags }

/-! ## open_serial_port (minitel.c lines 136-177)

`fd` is the descriptor that `open` would return on success.  The
environment records whether `open`, `tcgetattr` and `tcsetattr` succeed.
`closedFd` records whether `close(fd)` was executed before returning. -/

structure OpenEnv where
  openOk : Bool
  tcgetOk : Bool
  tcsetOk : Bool
deriving DecidableEq

structure OpenRes where
  ret : Int
  closedFd : Bool
deriving DecidableEq

def open_serial_port (fd : Nat) (e : OpenEnv) : OpenRes :=
  if e.openOk = false then { ret := -1, closedFd := false }
  else if e.tcgetOk = false then { ret := -1, closedFd := true }
  else if e.tcsetOk = false then { ret := -1, closedFd := true }
  else { ret := (fd : Int), closedFd := false }

/-! ## send_file_to_minitel (minitel.c lines 207-283) -/

/-- Externally visible actions of send_file_to_minitel:
`content b` is `write(fd, &c, 1)` (line 241), `wrap` is `write(fd, "\r\n", 2)`
(line 252), `cr` is `write(fd, "\r", 1)` (line 266), `lf` is
`write(fd, "\n", 1)` (line 273), `fcl` is `fclose(file)`. -/
inductive Act where
  | content (b : Nat)
  | wrap
  | cr
  | lf
  | fcl
deriving DecidableEq

/-- Oracles for external effects during one send_file_to_minitel call:
`alive i` is the result of the i-th check_serial_connection call,
`wok i` whether the i-th serial `write` returns non-negatively,
`run i` the value of `keep_running` at its i-th read. -/
structure Oracle where
  alive : Nat → Bool
  wok : Nat → Bool
  run : Nat → Bool

structure SendRes where
  ret : Int
  sent : Nat
  tr : List Act
  curs : List Nat
deriving DecidableEq

/-- The trailing line-feed loop, minitel.c lines 272-277: up to LINES_SKIP
iterations (first argument counts the iterations left), each reading
keep_running and then writing one "\n". -/
def lfLoop (orc : Oracle) : Nat → Nat → Nat → Int × List Act
  | 0, _, _ => (0, [])
  | m + 1, wi, ri =>
    if orc.run ri = false then (0, [])
    else if orc.wok wi = false then (-1, [Act.lf])
    else
      let r := lfLoop orc m (wi + 1) (ri + 1)
      (r.1, Act.lf :: r.2)

/-- Code after the read loop exits, minitel.c lines 263-282: fclose, write
the single "\r", then the line-feed loop, then return 0. -/
def sendEnd (orc : Oracle) (sent wi ri : Nat) : SendRes :=
  if orc.wok wi = false then
    { ret := -1, sent := sent, tr := [Act.fcl, Act.cr], curs := [] }
  else
    let r := lfLoop orc LINES_SKIP (wi + 1) ri
    { ret := r.1, sent := sent, tr := Act.fcl :: Act.cr :: r.2, curs := [] }

/-- The read-and-send loop, minitel.c lines 227-261.  `bs` is the list of
bytes fgetc has yet to deliver, `sent` is `bytes_sent`, `cnt` is `count`,
and `ai`, `wi`, `ri` index the three oracles.  The loop condition reads
keep_running and then fgetc; a byte whose `char` value equals -1 (byte 0xFF
on signed char) is indistinguishable from EOF.  `curs` records the value of
`count` at each loop-body entry. -/
def sendLoop (orc : Oracle) (bs : List Nat) (sent cnt ai wi ri : Nat) : SendRes :=
  if orc.run ri = false then sendEnd orc sent wi (ri + 1)
  else
    match bs with
    | [] => sendEnd orc sent wi (ri + 1)
    | b :: rest =>
      if charOfByte b = -1 then sendEnd orc sent wi (ri + 1)
      else if sent % 100 = 0 ∧ orc.alive ai = false then
        { ret := -1, sent := sent, tr := [Act.fcl], curs := [cnt] }
      else
        let ai2 := if sent % 100 = 0 then ai + 1 else ai
        if charOfByte b = 10 then
          let r := sendLoop orc rest sent cnt ai2 wi (ri + 1)
          { r with curs := cnt :: r.curs }
        else if orc.wok wi = false then
          { ret := -1, sent := sent, tr := [Act.content b, Act.fcl], curs := [cnt] }
        else if CHARS_PER_LINE ≤ cnt + 1 then
          if orc.wok (wi + 1) = false then
            { ret := -1, sent := sent + 1, tr := [Act.content b, Act.wrap, Act.fcl],
              curs := [cnt] }
          else
            let r := sendLoop orc rest (sent + 1) 0 ai2 (wi + 2) (ri + 1)
            { r with tr := Act.content b :: Act.wrap :: r.tr, curs := cnt :: r.curs }
        else
          let r := sendLoop orc rest (sent + 1) (cnt + 1) ai2 (wi + 1) (ri + 1)
          { r with tr := Act.content b :: r.tr, curs := cnt :: r.curs }

/-- send_file_to_minitel, minitel.c lines 207-283.  `fdValid` is whether
`fd ≥ 0`; `fopenOk` whether `fopen(filename, "r")` succeeds; `src` the byte
contents of the source file.  The initial liveness check (line 214) consumes
alive index 0, so the loop starts at alive index 1. -/
def send_file_to_minitel (orc : Oracle) (fdValid fopenOk : Bool) (src : List Nat) : SendRes :=
  if fdValid = false then { ret := -1, sent := 0, tr := [], curs := [] }
  else if orc.alive 0 = false then { ret := -1, sent := 0, tr := [], curs := [] }
  else if fopenOk = false then { ret := -1, sent := 0, tr := [], curs := [] }
  else sendLoop orc src 0 0 1 0 0

/-- Oracle in which every write succeeds, every liveness probe passes and
keep_running stays true. -/
def allOk : Oracle :=
  { alive := fun _ => true, wok := fun _ => true, run := fun _ => true }

/-- Oracle in which every write succeeds and every probe passes, but
keep_running turns false at its k-th read and stays false (signal-driven
stop, which in the program is monotone). -/
def stopAfter (k : Nat) : Oracle :=
  { alive := fun _ => true, wok := fun _ => true, run := fun i => decide (i < k) }

/-- Number of occurrences of action `a` in a trace. -/
def countAct (a : Act) : List Act → Nat
  | [] => 0
  | x :: r => (if x = a then 1 else 0) + countAct a r

/-- The content bytes of a trace, in order: the payload of every
`Act.content` action. -/
def contentBytes : List Act → List Nat
  | [] => []
  | Act.content b :: r => b :: contentBytes r
  | Act.wrap :: r => contentBytes r
  | Act.cr :: r => contentBytes r
  | Act.lf :: r => contentBytes r
  | Act.fcl :: r => contentBytes r

/-- The bytes of a source with the line-feeds removed. -/
def stripLf (bs : List Nat) : List Nat := bs.filter (fun b => decide (b ≠ 10))

/-! ## The main reconnection loop (minitel.c lines 331-403)

A state machine over the supervisor's observable state.  One step performs
the next external operation of the loop (open at phase `closed`, the screen
initialization at phase `opened`, one send_file_to_minitel call at phase
`streaming`); an event supplies that operation's result together with
whether a stop signal (SIGINT/SIGTERM) or a SIGHUP arrived since the
previous step — the handler at lines 75-86 sets keep_running to 0 or
reconnect_needed to 1, and the loop only observes the flags at its check
points. -/

inductive Phase where
  | closed
  | opened
  | streaming
  | done (code : Nat)
deriving DecidableEq

structure MState where
  phase : Phase
  keepRunning : Bool
  reconnectNeeded : Bool
  retryCount : Nat
  fdOpen : Bool
deriving DecidableEq

structure MEv where
  stopSig : Bool
  hupSig : Bool
  opOk : Bool
deriving DecidableEq

/-- State at entry to the `while (keep_running)` loop, minitel.c line 331. -/
def initState : MState :=
  { phase := .closed, keepRunning := true, reconnectNeeded := false,
    retryCount := 0, fdOpen := false }

def step (oneShot : Bool) (s : MState) (e : MEv) : MState :=
  match s.phase with
  | .done _ => s
  | .closed =>
    -- lines 331-361: check keep_running, then open_serial_port
    let kr := s.keepRunning && !e.stopSig
    let rn := s.reconnectNeeded || e.hupSig
    if kr = false then
      { s with phase := .done 0, keepRunning := kr, reconnectNeeded := rn }
    else if e.opOk then
      -- lines 352-353: retry_count = 0; reconnect_needed = 0 (before init)
      { phase := .opened, keepRunning := kr, reconnectNeeded := false,
        retryCount := 0, fdOpen := true }
    else if MAX_RETRIES ≤ s.retryCount + 1 then
      -- lines 336-341: retry_count++; fatal exit with status 1
      { s with
        phase := .done 1, keepRunning := kr, reconnectNeeded := rn,
        retryCount := s.retryCount + 1 }
    else
      -- lines 343-348: warn, sleep RETRY_DELAY, continue
      { s with
        phase := .closed, keepRunning := kr, reconnectNeeded := rn,
        retryCount := s.retryCount + 1 }
  | .opened =>
    -- lines 356-361: init_minitel_screen; on failure close and continue
    let kr := s.keepRunning && !e.stopSig
    let rn := s.reconnectNeeded || e.hupSig
    if e.opOk then
      { s with phase := .streaming, keepRunning := kr, reconnectNeeded := rn }
    else
      { s with
        phase := .closed, keepRunning := kr, reconnectNeeded := rn,
        fdOpen := false }
  | .streaming =>
    -- lines 364-398: inner loop head, one send, then close on exit
    let kr := s.keepRunning && !e.stopSig
    let rn := s.reconnectNeeded || e.hupSig
    if kr = false || rn then
      { s with
        phase := .closed, keepRunning := kr, reconnectNeeded := rn,
        fdOpen := false }
    else if e.opOk = false then
      -- lines 373-377: send failed, reconnect_needed = 1, break, close
      { s with
        phase := .closed, keepRunning := kr, reconnectNeeded := true,
        fdOpen := false }
    else if oneShot then
      -- lines 379-383: keep_running = 0, break, close
      { s with
        phase := .closed, keepRunning := false, reconnectNeeded := rn,
        fdOpen := false }
    else
      { s with phase := .streaming, keepRunning := kr, reconnectNeeded := rn }

def runM (oneShot : Bool) (s : MState) : List MEv → MState
  | [] => s
  | e :: es => runM oneShot (step oneShot s e) es

/-- Supervisor retry invariant: retry_count never exceeds MAX_RETRIES, and
any state other than the fatal exit keeps a strictly unexhausted budget. -/
def InvM (s : MState) : Prop :=
  s.retryCount ≤ MAX_RETRIES ∧
    (s.phase = Phase.done 1 ∨ s.retryCount + 1 ≤ MAX_RETRIES)

/-! ## Claim C1 -/

/-- C1: the claim that a completed send forwards every non-line-feed source
byte fails on the code.  `fgetc`'s result is stored in `char c`
(minitel.c line 209), so on a signed-char platform the source byte 0xFF
becomes -1 and the loop condition at line 227 conflates it with EOF: for the
two-byte LF-free source [0xFF, 0x41] the send completes with return value 0
yet forwards 0 of the 2 bytes, writing no content at all. -/
theorem c1_eof_conflation :
    (send_file_to_minitel allOk true true [255, 65]).ret = 0 ∧
    (send_file_to_minitel allOk true true [255, 65]).sent = 0 ∧
    contentBytes (send_file_to_minitel allOk true true [255, 65]).tr = [] ∧
    (stripLf [255, 65]).length = 2 := by decide

/-! ## Claim C2: counterexample -/

/-- C2: counterexample to "performs no further writes" after cancellation.
With keep_running turning false after 50 of 80 LF-free bytes (30 bytes
remain), the transmitter still returns 0 and forwards nothing more, but its
trace ends with `Act.cr`: the single `write(fd, "\r", 1)` at minitel.c
line 266 executes after the stop flag is already false, so one further
serial write does occur. -/
theorem c2_counterexample :
    (send_file_to_minitel (stopAfter 50) true true (List.replicate 80 65)).ret = 0 ∧
    (send_file_to_minitel (stopAfter 50) true true (List.replicate 80 65)).sent = 50 ∧
    (send_file_to_minitel (stopAfter 50) true true (List.replicate 80 65)).tr
      = List.replicate 50 (Act.content 65) ++ [Act.fcl, Act.cr] := by decide

/-! ## Claim C2: amended -/

/-- C2 amended: if keep_running becomes false while 30 bytes of an 80-byte
LF-free source remain, the transmitter stops without error (returns 0),
forwards exactly the 50 bytes read before the stop, emits none of the 70
trailing line-feeds (the stop flag is checked before each), but does perform
one further serial write, the single trailing carriage return of minitel.c
line 266; the supervisor then exits the process with status 0. -/
theorem c2_amended :
    (send_file_to_minitel (stopAfter 50) true true (List.replicate 80 65)).ret = 0 ∧
    (send_file_to_minitel (stopAfter 50) true true (List.replicate 80 65)).sent = 50 ∧
    contentBytes (send_file_to_minitel (stopAfter 50) true true (List.replicate 80 65)).tr
      = List.replicate 50 65 ∧
    countAct Act.lf
      (send_file_to_minitel (stopAfter 50) true true (List.replicate 80 65)).tr = 0 ∧
    countAct Act.cr
      (send_file_to_minitel (stopAfter 50) true true (List.replicate 80 65)).tr = 1 ∧
    runM false initState
      [{ stopSig := false, hupSig := false, opOk := true },
       { stopSig := false, hupSig := false, opOk := true },
       { stopSig := false, hupSig := false, opOk := true },
       { stopSig := true, hupSig := false, opOk := true },
       { stopSig := false, hupSig := false, opOk := false }]
      = { phase := .done 0, keepRunning := false, reconnectNeeded := false,
          retryCount := 0, fdOpen := false } := by decide

/-! ## Claim C5: counterexample -/

/-- C5: counterexample to "send returns the count of bytes forwarded".  For
the two-byte source [0x41, 0x42] the send forwards 2 bytes but returns 0
(minitel.c line 282 returns the constant 0 on success; the count is only
logged at line 279). -/
theorem c5_counterexample :
    (send_file_to_minitel allOk true true [65, 66]).sent = 2 ∧
    (send_file_to_minitel allOk true true [65, 66]).ret = 0 ∧
    (send_file_to_minitel allOk true true [65, 66]).ret
      ≠ ((send_file_to_minitel allOk true true [65, 66]).sent : Int) := by decide

/-! ## Claim C6: counterexample -/

/-- C6: counterexample to "reconnect_needed is cleared only after a
successful open AND a completed initialization".  Trace: a SIGHUP arrives
together with a failed open, so reconnect_needed is observably true; the
next open succeeds, and minitel.c line 353 clears the flag before
init_minitel_screen runs; that initialization then fails, yet the flag
remains cleared — so the flag was cleared after an open that was not
followed by a completed initialization. -/
theorem c6_counterexample :
    (runM false initState
      [{ stopSig := false, hupSig := true, opOk := false }]).reconnectNeeded = true ∧
    (runM false initState
      [{ stopSig := false, hupSig := true, opOk := false },
       { stopSig := false, hupSig := false, opOk := true }]).reconnectNeeded = false ∧
    (runM false initState
      [{ stopSig := false, hupSig := true, opOk := false },
       { stopSig := false, hupSig := false, opOk := true }]).phase = Phase.opened ∧
    (runM false initState
      [{ stopSig := false, hupSig := true, opOk := false },
       { stopSig := false, hupSig := false, opOk := true },
       { stopSig := false, hupSig := false, opOk := false }]).phase = Phase.closed ∧
    (runM false initState
      [{ stopSig := false, hupSig := true, opOk := false },
       { stopSig := false, hupSig := false, opOk := true },
       { stopSig := false, hupSig := false, opOk := false }]).reconnectNeeded
      = false := by decide

/-! ## Claim C7 -/

/-- C7: whenever open_serial_port returns -1 although the `open` call itself
succeeded (that is, the error came from tcgetattr at minitel.c line 149 or
tcsetattr at line 163), the descriptor was closed before returning, so no
open-path error leaks a live descriptor. -/
theorem c7_close_before_error (fd : Nat) (e : OpenEnv) (hopen : e.openOk = true)
    (herr : (open_serial_port fd e).ret = -1) :
    (open_serial_port fd e).closedFd = true := by
  rcases e with ⟨o, g, s⟩
  cases o <;> cases g <;> cases s <;> simp_all [open_serial_port]

/-- C7 witness: concrete instance, tcgetattr failing after a successful
open of descriptor 3. -/
theorem c7_close_before_error_witness :
    (open_serial_port 3 { openOk := true, tcgetOk := false, tcsetOk := true }).closedFd
      = true :=
  c7_close_before_error 3 _ rfl rfl

/-! ## Claim C8 -/

/-- C8: the liveness probe check_serial_connection returns false exactly
when the handle is invalid (fd below 0, minitel.c line 114) or the probe
write fails with errno EBADF (line 126); in every other case, including a
probe write failing with any other errno, it returns true. -/
theorem c8_liveness_probe (fd : Int) (flags : Nat) (probeErr : Option Nat) :
    (check_serial_connection fd flags probeErr).result = false ↔
      fd < 0 ∨ probeErr = some EBADF := by
  rcases probeErr with _ | e
  · by_cases h : fd < 0 <;> simp [check_serial_connection, h]
  · by_cases h : fd < 0 <;> by_cases he : e = EBADF <;>
      simp [check_serial_connection, h, he]

/-- C8 witness: a never-opened handle (fd = -1) probes as disconnected. -/
theorem c8_liveness_probe_witness :
    ((check_serial_connection (-1) 0 none).result = false ↔
      (-1 : Int) < 0 ∨ (none : Option Nat) = some EBADF) :=
  c8_liveness_probe (-1) 0 none

/-! ## Claim C10 -/

/-- C10: the liveness probe leaves the descriptor's file status flags as it
found them: for an invalid fd it touches nothing, and for a valid fd its two
F_SETFL calls are exactly "flags with O_NONBLOCK added" for the duration of
the probe and then the saved flags again (minitel.c lines 119-124), so the
final flag word equals the initial one for every handle and probe outcome. -/
theorem c10_flags_restored (fd : Int) (flags : Nat) (probeErr : Option Nat) :
    (check_serial_connection fd flags probeErr).finalFlags = flags ∧
    (0 ≤ fd → (check_serial_connection fd flags probeErr).setfl
        = [Nat.lor flags O_NONBLOCK, flags]) ∧
    (fd < 0 → (check_serial_connection fd flags probeErr).setfl = []) := by
  refine ⟨?_, ?_, ?_⟩
  · by_cases h : fd < 0 <;> simp [check_serial_connection, h]
  · intro h0
    have h : ¬ fd < 0 := by omega
    simp [check_serial_connection, h]
  · intro h
    simp [check_serial_connection, h]

/-- C10 witness: concrete instance on descriptor 5 with initial flags 7 and
a successful probe. -/
theorem c10_flags_restored_witness :
    (check_serial_connection 5 7 none).finalFlags = 7 ∧
    (check_serial_connection 5 7 none).setfl = [Nat.lor 7 O_NONBLOCK, 7] :=
  ⟨(c10_flags_restored 5 7 none).1, (c10_flags_restored 5 7 none).2.1 (by decide)⟩

/-! ## Supervisor lemmas -/

theorem invM_step (oneShot : Bool) (s : MState) (e : MEv) (h : InvM s) :
    InvM (step oneShot s e) := by
  rcases s with ⟨ph, kr0, rn0, rc, fdo⟩
  cases ph
  case closed =>
    simp only [InvM, MAX_RETRIES, step] at h ⊢
    split_ifs <;> (simp_all; try omega)
  case opened =>
    simp only [InvM, MAX_RETRIES, step] at h ⊢
    split_ifs <;> simp_all
  case streaming =>
    simp only [InvM, MAX_RETRIES, step] at h ⊢
    split_ifs <;> simp_all
  case done => exact h

theorem invM_run (oneShot : Bool) : ∀ (evs : List MEv) (s : MState), InvM s →
    InvM (runM oneShot s evs)
  | [], _, h => h
  | e :: es, s, h => invM_run oneShot es _ (invM_step oneShot s e h)

/-! ## Claim C3 -/

/-- C3: from the initial state, five consecutive failed opens with no
intervening success drive the supervisor to the fatal exit with status 1
(and only four failed opens do not); any successful open performed from the
closed phase resets retry_count to 0; and retry_count never exceeds
MAX_RETRIES in any reachable state. -/
theorem c3_retry_budget :
    (runM false initState
        (List.replicate MAX_RETRIES { stopSig := false, hupSig := false, opOk := false })).phase
      = Phase.done 1 ∧
    (runM false initState
        (List.replicate 4 { stopSig := false, hupSig := false, opOk := false })).phase
      = Phase.closed ∧
    (runM false initState
        (List.replicate 4 { stopSig := false, hupSig := false, opOk := false })).retryCount
      = 4 ∧
    (∀ (oneShot : Bool) (s : MState) (e : MEv),
      s.phase = Phase.closed → (s.keepRunning && !e.stopSig) = true → e.opOk = true →
      (step oneShot s e).retryCount = 0) ∧
    (∀ (oneShot : Bool) (evs : List MEv),
      (runM oneShot initState evs).retryCount ≤ MAX_RETRIES) := by
  refine ⟨by decide, by decide, by decide, ?_, ?_⟩
  · intro oneShot s e hph hkr hok
    rcases s with ⟨ph, kr0, rn0, rc, fdo⟩
    simp only [MState.phase] at hph
    subst hph
    simp_all [step]
  · intro oneShot evs
    exact (invM_run oneShot evs initState (by simp [InvM, initState, MAX_RETRIES])).1

/-- C3 witness: a successful open from the closed phase at retry_count 3
resets the counter, and a one-event run respects the budget. -/
theorem c3_retry_budget_witness :
    (step false
        { phase := Phase.closed, keepRunning := true, reconnectNeeded := false,
          retryCount := 3, fdOpen := false }
        { stopSig := false, hupSig := false, opOk := true }).retryCount = 0 ∧
    (runM false initState
        [{ stopSig := false, hupSig := false, opOk := false }]).retryCount ≤ MAX_RETRIES :=
  ⟨c3_retry_budget.2.2.2.1 false _ _ rfl rfl rfl,
   c3_retry_budget.2.2.2.2 false _⟩

/-! ## Claim C6: amended -/

/-- C6 amended: the supervisor clears reconnect_needed only on the step
that performs a successful open from the closed phase (minitel.c line 353),
and that step leaves the machine in the opened phase, with the display
initialization still pending; no later step — in particular not a completed
initialization — is the clearing point, so a failed initialization can
follow a clear. -/
theorem c6_amended (oneShot : Bool) (s : MState) (e : MEv)
    (hset : s.reconnectNeeded = true)
    (hclr : (step oneShot s e).reconnectNeeded = false) :
    s.phase = Phase.closed ∧ e.opOk = true ∧ (s.keepRunning && !e.stopSig) = true ∧
    (step oneShot s e).phase = Phase.opened := by
  rcases s with ⟨ph, kr0, rn0, rc, fdo⟩
  rcases e with ⟨st, hp, ok⟩
  by_cases hrc : MAX_RETRIES ≤ rc + 1 <;>
    cases ph <;> cases oneShot <;> cases kr0 <;> cases st <;> cases hp <;> cases ok <;>
      simp_all [step] <;>
    rw [if_neg (by omega)] at hclr <;> simp_all

/-- C6 amended witness: concrete clearing step — reconnect_needed set, open
succeeds from closed, the machine moves to the opened phase. -/
theorem c6_amended_witness :
    (step false
        { phase := Phase.closed, keepRunning := true, reconnectNeeded := true,
          retryCount := 0, fdOpen := false }
        { stopSig := false, hupSig := false, opOk := true }).phase = Phase.opened :=
  (c6_amended false _ _ rfl (by decide)).2.2.2

/-! ## Transmitter trace lemmas -/

theorem lfLoop_no_fcl (orc : Oracle) : ∀ (m wi ri : Nat),
    countAct Act.fcl (lfLoop orc m wi ri).2 = 0
  | 0, _, _ => rfl
  | m + 1, wi, ri => by
    rw [lfLoop]
    split_ifs <;> simp [countAct, lfLoop_no_fcl orc m]

theorem sendEnd_fcl (orc : Oracle) (sent wi ri : Nat) :
    countAct Act.fcl (sendEnd orc sent wi ri).tr = 1 := by
  rw [sendEnd]
  split_ifs <;> simp [countAct, lfLoop_no_fcl]

theorem sendLoop_fcl (orc : Oracle) : ∀ (bs : List Nat) (sent cnt ai wi ri : Nat),
    countAct Act.fcl (sendLoop orc bs sent cnt ai wi ri).tr = 1
  | [], sent, cnt, ai, wi, ri => by
    rw [sendLoop]
    split_ifs <;> simp [sendEnd_fcl]
  | b :: rest, sent, cnt, ai, wi, ri => by
    rw [sendLoop]
    split_ifs <;> simp [countAct, sendEnd_fcl, sendLoop_fcl orc rest]

/-! ## Claim C9 -/

/-- C9: whenever send_file_to_minitel gets past its entry checks (valid
handle, initial liveness probe passes) and the source file is successfully
opened, the trace of the call contains exactly one fclose, on every exit
path — mid-stream liveness failure, any failed write, cancellation, or
normal end of file — for every source and every oracle. -/
theorem c9_fclose_once (orc : Oracle) (src : List Nat) (halive : orc.alive 0 = true) :
    countAct Act.fcl (send_file_to_minitel orc true true src).tr = 1 := by
  simp [send_file_to_minitel, halive, sendLoop_fcl]

/-- C9 witness: concrete instance, the all-success oracle on a one-byte
source. -/
theorem c9_fclose_once_witness :
    countAct Act.fcl (send_file_to_minitel allOk true true [65]).tr = 1 :=
  c9_fclose_once allOk [65] rfl

/-! ## Linear-streaming lemmas (all writes succeed, all probes pass,
keep_running stays true) -/

theorem stripLf_cons_lf (l : List Nat) : stripLf (10 :: l) = stripLf l := by
  simp [stripLf]

theorem stripLf_cons_ne (b : Nat) (l : List Nat) (h : b ≠ 10) :
    stripLf (b :: l) = b :: stripLf l := by
  simp [stripLf, h]

theorem countAct_replicate (a b : Act) (n : Nat) :
    countAct a (List.replicate n b) = if b = a then n else 0 := by
  induction n with
  | zero => simp [countAct]
  | succ n ih =>
    simp only [List.replicate_succ, countAct, ih]
    split_ifs <;> omega

theorem contentBytes_replicate_lf (n : Nat) :
    contentBytes (List.replicate n Act.lf) = [] := by
  induction n with
  | zero => rfl
  | succ n ih => simp [List.replicate_succ, contentBytes, ih]

theorem charOfByte_ne_eof (b : Nat) (hb : b < 255) : ¬ charOfByte b = -1 := by
  unfold charOfByte
  split_ifs <;> intro h2 <;> first | exact h2 | omega

theorem charOfByte_eq_lf_iff (b : Nat) (hb : b < 255) :
    charOfByte b = 10 ↔ b = 10 := by
  unfold charOfByte
  split_ifs <;> constructor <;> intro h2 <;> omega

theorem allOk_run (i : Nat) : allOk.run i = true := rfl

theorem allOk_wok (i : Nat) : allOk.wok i = true := rfl

theorem allOk_alive (i : Nat) : allOk.alive i = true := rfl

theorem lfLoop_allOk : ∀ (m wi ri : Nat),
    lfLoop allOk m wi ri = (0, List.replicate m Act.lf)
  | 0, _, _ => rfl
  | m + 1, wi, ri => by
    rw [lfLoop]
    simp [allOk_run, allOk_wok, lfLoop_allOk m, List.replicate_succ]

theorem sendEnd_allOk (sent wi ri : Nat) :
    sendEnd allOk sent wi ri
      = { ret := 0, sent := sent,
          tr := Act.fcl :: Act.cr :: List.replicate LINES_SKIP Act.lf, curs := [] } := by
  rw [sendEnd]
  simp [allOk_wok, lfLoop_allOk]

theorem sendLoop_allOk_nil (sent cnt ai wi ri : Nat) :
    sendLoop allOk [] sent cnt ai wi ri = sendEnd allOk sent wi (ri + 1) := by
  rw [sendLoop]
  simp [allOk_run]

theorem sendLoop_allOk_cons_lf (b : Nat) (rest : List Nat) (sent cnt ai wi ri : Nat)
    (h10 : charOfByte b = 10) :
    sendLoop allOk (b :: rest) sent cnt ai wi ri
      = { ret := (sendLoop allOk rest sent cnt (if sent % 100 = 0 then ai + 1 else ai)
            wi (ri + 1)).ret,
          sent := (sendLoop allOk rest sent cnt (if sent % 100 = 0 then ai + 1 else ai)
            wi (ri + 1)).sent,
          tr := (sendLoop allOk rest sent cnt (if sent % 100 = 0 then ai + 1 else ai)
            wi (ri + 1)).tr,
          curs := cnt :: (sendLoop allOk rest sent cnt
            (if sent % 100 = 0 then ai + 1 else ai) wi (ri + 1)).curs } := by
  rw [sendLoop]
  simp [allOk_run, allOk_alive, h10]

theorem sendLoop_allOk_cons_wrap (b : Nat) (rest : List Nat) (sent cnt ai wi ri : Nat)
    (heof : ¬ charOfByte b = -1) (h10 : ¬ charOfByte b = 10)
    (hwrap : CHARS_PER_LINE ≤ cnt + 1) :
    sendLoop allOk (b :: rest) sent cnt ai wi ri
      = { ret := (sendLoop allOk rest (sent + 1) 0 (if sent % 100 = 0 then ai + 1 else ai)
            (wi + 2) (ri + 1)).ret,
          sent := (sendLoop allOk rest (sent + 1) 0 (if sent % 100 = 0 then ai + 1 else ai)
            (wi + 2) (ri + 1)).sent,
          tr := Act.content b :: Act.wrap :: (sendLoop allOk rest (sent + 1) 0
            (if sent % 100 = 0 then ai + 1 else ai) (wi + 2) (ri + 1)).tr,
          curs := cnt :: (sendLoop allOk rest (sent + 1) 0
            (if sent % 100 = 0 then ai + 1 else ai) (wi + 2) (ri + 1)).curs } := by
  rw [sendLoop]
  simp [allOk_run, allOk_alive, allOk_wok, heof, h10, hwrap]

theorem sendLoop_allOk_cons_plain (b : Nat) (rest : List Nat) (sent cnt ai wi ri : Nat)
    (heof : ¬ charOfByte b = -1) (h10 : ¬ charOfByte b = 10)
    (hwrap : ¬ CHARS_PER_LINE ≤ cnt + 1) :
    sendLoop allOk (b :: rest) sent cnt ai wi ri
      = { ret := (sendLoop allOk rest (sent + 1) (cnt + 1)
            (if sent % 100 = 0 then ai + 1 else ai) (wi + 1) (ri + 1)).ret,
          sent := (sendLoop allOk rest (sent + 1) (cnt + 1)
            (if sent % 100 = 0 then ai + 1 else ai) (wi + 1) (ri + 1)).sent,
          tr := Act.content b :: (sendLoop allOk rest (sent + 1) (cnt + 1)
            (if sent % 100 = 0 then ai + 1 else ai) (wi + 1) (ri + 1)).tr,
          curs := cnt :: (sendLoop allOk rest (sent + 1) (cnt + 1)
            (if sent % 100 = 0 then ai + 1 else ai) (wi + 1) (ri + 1)).curs } := by
  rw [sendLoop]
  simp [allOk_run, allOk_alive, allOk_wok, heof, h10, hwrap]

/-- Linear streaming, minitel.c lines 227-282, under the all-success
oracle, for sources free of byte 0xFF (which the char-typed EOF comparison
at line 227 would conflate with end of file): the call succeeds, forwards
exactly the non-line-feed bytes in order, inserts one wrap per full 80
forwarded bytes, closes the file once, writes one trailing CR and 70
trailing LFs, and the line cursor observed at every loop entry stays
below 80. -/
theorem sendLoop_allOk_spec (bs : List Nat) : ∀ (sent cnt ai wi ri : Nat),
    (∀ b ∈ bs, b < 255) → cnt = sent % 80 →
    (sendLoop allOk bs sent cnt ai wi ri).ret = 0 ∧
    (sendLoop allOk bs sent cnt ai wi ri).sent = sent + (stripLf bs).length ∧
    contentBytes (sendLoop allOk bs sent cnt ai wi ri).tr = stripLf bs ∧
    countAct Act.wrap (sendLoop allOk bs sent cnt ai wi ri).tr
      = (sent + (stripLf bs).length) / 80 - sent / 80 ∧
    countAct Act.cr (sendLoop allOk bs sent cnt ai wi ri).tr = 1 ∧
    countAct Act.lf (sendLoop allOk bs sent cnt ai wi ri).tr = LINES_SKIP ∧
    (∀ x ∈ (sendLoop allOk bs sent cnt ai wi ri).curs, x < 80) := by
  induction bs with
  | nil =>
    intro sent cnt ai wi ri hb hcnt
    rw [sendLoop_allOk_nil, sendEnd_allOk]
    simp [stripLf, contentBytes, countAct, contentBytes_replicate_lf, countAct_replicate,
      LINES_SKIP]
  | cons b rest ih =>
    intro sent cnt ai wi ri hb hcnt
    have hb255 : b < 255 := hb b (by simp)
    have hrest : ∀ x ∈ rest, x < 255 := fun x hx => hb x (by simp [hx])
    have heof := charOfByte_ne_eof b hb255
    have hcur : cnt < 80 := by omega
    by_cases h10 : charOfByte b = 10
    · have hb10 : b = 10 := (charOfByte_eq_lf_iff b hb255).mp h10
      obtain ⟨ih1, ih2, ih3, ih4, ih5, ih6, ih7⟩ :=
        ih sent cnt (if sent % 100 = 0 then ai + 1 else ai) wi (ri + 1) hrest hcnt
      rw [sendLoop_allOk_cons_lf b rest sent cnt ai wi ri h10, hb10, stripLf_cons_lf]
      refine ⟨ih1, ih2, ih3, ih4, ih5, ih6, ?_⟩
      intro x hx
      rcases List.mem_cons.mp hx with hx | hx
      · omega
      · exact ih7 x hx
    · have hb10 : b ≠ 10 := fun h => h10 (by rw [h]; rfl)
      by_cases hwrap : CHARS_PER_LINE ≤ cnt + 1
      · have hmod : sent % 80 = 79 := by
          simp only [CHARS_PER_LINE] at hwrap; omega
        obtain ⟨ih1, ih2, ih3, ih4, ih5, ih6, ih7⟩ :=
          ih (sent + 1) 0 (if sent % 100 = 0 then ai + 1 else ai) (wi + 2) (ri + 1)
            hrest (by omega)
        rw [sendLoop_allOk_cons_wrap b rest sent cnt ai wi ri heof h10 hwrap,
          stripLf_cons_ne b rest hb10]
        refine ⟨ih1, ?_, ?_, ?_, ?_, ?_, ?_⟩
        · simp only [ih2, List.length_cons]
          omega
        · simp only [contentBytes, ih3]
        · simp only [countAct, ih2, ih4, List.length_cons]
          simp only [show (Act.content b = Act.wrap) = False by simp,
            show (Act.wrap = Act.wrap) = True by simp]
          simp only [if_false, if_true]
          omega
        · simp only [countAct, ih5]
          simp
        · simp only [countAct, ih6]
          simp
        · intro x hx
          rcases List.mem_cons.mp hx with hx | hx
          · omega
          · exact ih7 x hx
      · obtain ⟨ih1, ih2, ih3, ih4, ih5, ih6, ih7⟩ :=
          ih (sent + 1) (cnt + 1) (if sent % 100 = 0 then ai + 1 else ai) (wi + 1) (ri + 1)
            hrest (by simp only [CHARS_PER_LINE] at hwrap; omega)
        rw [sendLoop_allOk_cons_plain b rest sent cnt ai wi ri heof h10 hwrap,
          stripLf_cons_ne b rest hb10]
        have hmod : sent % 80 ≤ 78 := by
          simp only [CHARS_PER_LINE] at hwrap; omega
        refine ⟨ih1, ?_, ?_, ?_, ?_, ?_, ?_⟩
        · simp only [ih2, List.length_cons]
          omega
        · simp only [contentBytes, ih3]
        · simp only [countAct, ih2, ih4, List.length_cons]
          simp only [show (Act.content b = Act.wrap) = False by simp]
          simp only [if_false]
          omega
        · simp only [countAct, ih5]
          simp
        · simp only [countAct, ih6]
          simp
        · intro x hx
          rcases List.mem_cons.mp hx with hx | hx
          · omega
          · exact ih7 x hx

theorem send_file_allOk_unfold (src : List Nat) :
    send_file_to_minitel allOk true true src = sendLoop allOk src 0 0 1 0 0 := by
  rw [send_file_to_minitel]
  simp [allOk_alive]

/-! ## Claim C4 -/

theorem lfLoop_only_lf (orc : Oracle) (a : Act) (ha : a ≠ Act.lf) :
    ∀ (m wi ri : Nat), countAct a (lfLoop orc m wi ri).2 = 0
  | 0, _, _ => rfl
  | m + 1, wi, ri => by
    rw [lfLoop]
    split_ifs <;> simp [countAct, lfLoop_only_lf orc a ha m, Ne.symm ha]

theorem sendEnd_no_wrap (orc : Oracle) (sent wi ri : Nat) :
    countAct Act.wrap (sendEnd orc sent wi ri).tr = 0 ∧
    (sendEnd orc sent wi ri).sent = sent ∧
    (sendEnd orc sent wi ri).curs = [] := by
  rw [sendEnd]
  split_ifs <;>
    simp [countAct, lfLoop_only_lf orc Act.wrap (by simp)]

/-- The wrap/cursor invariant of the streaming loop holds on every path,
for every oracle: starting with count = bytes_sent % 80, the wraps emitted
from that point equal the growth of bytes_sent / 80, bytes_sent never
decreases, and every cursor value observed at a loop entry is below 80. -/
theorem sendLoop_wrap_inv (orc : Oracle) (bs : List Nat) : ∀ (sent cnt ai wi ri : Nat),
    cnt = sent % 80 →
    sent ≤ (sendLoop orc bs sent cnt ai wi ri).sent ∧
    countAct Act.wrap (sendLoop orc bs sent cnt ai wi ri).tr
      = (sendLoop orc bs sent cnt ai wi ri).sent / 80 - sent / 80 ∧
    (∀ x ∈ (sendLoop orc bs sent cnt ai wi ri).curs, x < 80) := by
  induction bs with
  | nil =>
    intro sent cnt ai wi ri hcnt
    rw [sendLoop]
    obtain ⟨e1, e2, e3⟩ := sendEnd_no_wrap orc sent wi (ri + 1)
    split_ifs <;> simp [e1, e2, e3]
  | cons b rest ih =>
    intro sent cnt ai wi ri hcnt
    have hcur : cnt < 80 := by omega
    rw [sendLoop]
    by_cases hrun : orc.run ri = false
    · rw [if_pos hrun]
      obtain ⟨e1, e2, e3⟩ := sendEnd_no_wrap orc sent wi (ri + 1)
      simp [e1, e2, e3]
    · rw [if_neg hrun]
      by_cases heof : charOfByte b = -1
      · rw [if_pos heof]
        obtain ⟨e1, e2, e3⟩ := sendEnd_no_wrap orc sent wi (ri + 1)
        simp [e1, e2, e3]
      · rw [if_neg heof]
        by_cases hchk : sent % 100 = 0 ∧ orc.alive ai = false
        · rw [if_pos hchk]
          refine ⟨le_refl _, by simp [countAct], ?_⟩
          intro x hx
          simp at hx
          omega
        · rw [if_neg hchk]
          by_cases h10 : charOfByte b = 10
          · rw [if_pos h10]
            obtain ⟨i1, i2, i3⟩ :=
              ih sent cnt (if sent % 100 = 0 then ai + 1 else ai) wi (ri + 1) hcnt
            refine ⟨by simpa using i1, by simpa using i2, ?_⟩
            intro x hx
            simp at hx
            rcases hx with hx | hx
            · omega
            · exact i3 x hx
          · rw [if_neg h10]
            by_cases hwok : orc.wok wi = false
            · rw [if_pos hwok]
              refine ⟨le_refl _, by simp [countAct], ?_⟩
              intro x hx
              simp at hx
              omega
            · rw [if_neg hwok]
              by_cases hwrap : CHARS_PER_LINE ≤ cnt + 1
              · rw [if_pos hwrap]
                have hmod : sent % 80 = 79 := by
                  simp only [CHARS_PER_LINE] at hwrap; omega
                by_cases hwok2 : orc.wok (wi + 1) = false
                · rw [if_pos hwok2]
                  refine ⟨by simp, by simp [countAct]; omega, ?_⟩
                  intro x hx
                  simp at hx
                  omega
                · rw [if_neg hwok2]
                  obtain ⟨i1, i2, i3⟩ :=
                    ih (sent + 1) 0 (if sent % 100 = 0 then ai + 1 else ai)
                      (wi + 2) (ri + 1) (by omega)
                  refine ⟨by simpa using by omega, ?_, ?_⟩
                  · simp only [countAct, i2]
                    simp only [show (Act.content b = Act.wrap) = False by simp,
                      show (Act.wrap = Act.wrap) = True by simp]
                    simp only [if_false, if_true]
                    omega
                  · intro x hx
                    simp at hx
                    rcases hx with hx | hx
                    · omega
                    · exact i3 x hx
              · rw [if_neg hwrap]
                have hmod : sent % 80 ≤ 78 := by
                  simp only [CHARS_PER_LINE] at hwrap; omega
                obtain ⟨i1, i2, i3⟩ :=
                  ih (sent + 1) (cnt + 1) (if sent % 100 = 0 then ai + 1 else ai)
                    (wi + 1) (ri + 1) (by omega)
                refine ⟨by simpa using by omega, ?_, ?_⟩
                · simp only [countAct, i2]
                  simp only [show (Act.content b = Act.wrap) = False by simp]
                  simp only [if_false]
                  omega
                · intro x hx
                  simp at hx
                  rcases hx with hx | hx
                  · omega
                  · exact i3 x hx

/-- C4: on every path of send_file_to_minitel — any oracle for write
results, probe results and keep_running, and any source bytes — the number
of inserted CR+LF wrap sequences equals the number of forwarded bytes
divided by CHARS_PER_LINE rounding down (a wrap fires exactly when the
cursor reaches 80, then the cursor resets), and the line cursor observed at
every per-byte loop entry stays within [0, CHARS_PER_LINE). -/
theorem c4_wrap_count (orc : Oracle) (fdValid fopenOk : Bool) (src : List Nat) :
    countAct Act.wrap (send_file_to_minitel orc fdValid fopenOk src).tr
      = (send_file_to_minitel orc fdValid fopenOk src).sent / CHARS_PER_LINE ∧
    (∀ x ∈ (send_file_to_minitel orc fdValid fopenOk src).curs, x < CHARS_PER_LINE) := by
  rw [send_file_to_minitel, CHARS_PER_LINE]
  split_ifs <;> try simp [countAct]
  obtain ⟨i1, i2, i3⟩ := sendLoop_wrap_inv orc src 0 0 1 0 0 rfl
  refine ⟨?_, i3⟩
  rw [i2]
  omega

/-- C4 witness: concrete instance, all-success oracle on a two-byte source,
zero wraps for two forwarded bytes. -/
theorem c4_wrap_count_witness :
    countAct Act.wrap (send_file_to_minitel allOk true true [72, 105]).tr
      = (send_file_to_minitel allOk true true [72, 105]).sent / CHARS_PER_LINE :=
  (c4_wrap_count allOk true true [72, 105]).1

/-! ## Claim C5: amended -/

/-- C5 amended: on successful completion send_file_to_minitel returns 0 — a
success indicator, not the byte count (the count reaches the caller only
through the log message of minitel.c line 279) — and the bytes actually
forwarded are exactly the source bytes minus its line-feeds, in order
(for sources free of byte 0xFF, under the all-success oracle). -/
theorem c5_amended (src : List Nat) (hb : ∀ b ∈ src, b < 255) :
    (send_file_to_minitel allOk true true src).ret = 0 ∧
    (send_file_to_minitel allOk true true src).sent = (stripLf src).length ∧
    contentBytes (send_file_to_minitel allOk true true src).tr = stripLf src := by
  obtain ⟨h1, h2, h3, h4, h5, h6, h7⟩ := sendLoop_allOk_spec src 0 0 1 0 0 hb rfl
  rw [send_file_allOk_unfold]
  refine ⟨h1, ?_, h3⟩
  rw [h2]
  omega

/-- C5 amended witness: three-byte source with an interior line-feed. -/
theorem c5_amended_witness :
    (send_file_to_minitel allOk true true [65, 10, 66]).ret = 0 ∧
    (send_file_to_minitel allOk true true [65, 10, 66]).sent
      = (stripLf [65, 10, 66]).length ∧
    contentBytes (send_file_to_minitel allOk true true [65, 10, 66]).tr
      = stripLf [65, 10, 66] :=
  c5_amended [65, 10, 66] (by decide)

end Minitel
